import Mathlib

/-!
Verification development for the encoding sniffer (`smartDecodeFileName`) and the
raw TAR block parser (`extractTar`) of the online unzip tool.

Modelling conventions.

Byte buffers (`Uint8Array` / `ArrayBuffer` contents) are `List Nat` with each
element a byte value `0..255`.  JavaScript strings are modelled as `List Nat` of
Unicode code points; every decoder appearing in this development only ever
produces code points in the Basic Multilingual Plane, where the JavaScript
(UTF-16) string length coincides with the code-point count, so `List.length` is
a faithful model of `String.prototype.length` for every string the sniffer
builds.

The source delegates individual decodes to the browser `TextDecoder` class.
`TextDecoder` is specified by the WHATWG Encoding Standard, so the decoders
below are modelled from that standard, not from repository code:
  - the labels `ascii` and `latin1` both name the windows-1252 single-byte
    decoder (total, one code point per byte);
  - `utf-8` with `fatal: true` rejects exactly the byte sequences that are not
    well-formed UTF-8 (overlongs, surrogates, values above U+10FFFF);
  - `gbk` and `gb2312` both name the gb18030 decoder, `big5` and `shift-jis`
    their namesake decoders; in non-fatal mode these never throw and emit
    U+FFFD for each decode error.
The multi-byte decoders are driven by large character index tables (about
24000 entries for gb18030).  Those tables are outside what can be reproduced
here; the index functions below are specified only at the pointers this
development evaluates, and return `none` (hence U+FFFD on decode) elsewhere.
Every theorem that evaluates a multi-byte decoder does so only at byte
sequences whose decoding is fixed either by the structural part of the WHATWG
algorithm or by an index entry given explicitly below.
-/

set_option maxRecDepth 100000

/-- Tail-recursive length with a strict accumulator (the inner match keeps
the accumulator a numeral during kernel reduction).  Equal to `List.length`
by `byteLength_eq`; it also models the `byteLength` field of an ArrayBuffer,
which the source reads rather than recomputes. -/
def byteLenAux : List Nat → Nat → Nat
  | [], n => n
  | _ :: t, n =>
    match n + 1 with
    | 0 => byteLenAux t 0
    | Nat.succ m => byteLenAux t (m + 1)

/-- The length of a byte buffer (`arrayBuffer.byteLength`). -/
def byteLength (buf : List Nat) : Nat := byteLenAux buf 0

/-- Windows-1252 single-byte mapping, from the WHATWG Encoding Standard index.
Bytes `0x00..0x7F` and `0xA0..0xFF` map to themselves; `0x80..0x9F` map to the
listed code points (the five bytes `81 8D 8F 90 9D` map to themselves). -/
def win1252Byte (b : Nat) : Nat :=
  if b = 0x80 then 0x20AC
  else if b = 0x82 then 0x201A
  else if b = 0x83 then 0x0192
  else if b = 0x84 then 0x201E
  else if b = 0x85 then 0x2026
  else if b = 0x86 then 0x2020
  else if b = 0x87 then 0x2021
  else if b = 0x88 then 0x02C6
  else if b = 0x89 then 0x2030
  else if b = 0x8A then 0x0160
  else if b = 0x8B then 0x2039
  else if b = 0x8C then 0x0152
  else if b = 0x8E then 0x017D
  else if b = 0x91 then 0x2018
  else if b = 0x92 then 0x2019
  else if b = 0x93 then 0x201C
  else if b = 0x94 then 0x201D
  else if b = 0x95 then 0x2022
  else if b = 0x96 then 0x2013
  else if b = 0x97 then 0x2014
  else if b = 0x98 then 0x02DC
  else if b = 0x99 then 0x2122
  else if b = 0x9A then 0x0161
  else if b = 0x9B then 0x203A
  else if b = 0x9C then 0x0153
  else if b = 0x9E then 0x017E
  else if b = 0x9F then 0x0178
  else b

/-- The windows-1252 decoder: total, exactly one code point per input byte.
This is the decoder behind both `new TextDecoder('ascii')` (first tier of
`smartDecodeFileName`) and `new TextDecoder('latin1')` (last tier). -/
def win1252Decode (bytes : List Nat) : List Nat :=
  bytes.map win1252Byte

/-- Unicode scalar values: everything a strict UTF-8 decode can produce and a
well-formed encoder can consume (no surrogates, at most U+10FFFF). -/
def isValidScalar (c : Nat) : Prop :=
  c < 0xD800 ∨ (0xE000 ≤ c ∧ c ≤ 0x10FFFF)

instance (c : Nat) : Decidable (isValidScalar c) := by
  unfold isValidScalar; infer_instance

/-- Standard UTF-8 encoding of one Unicode scalar value. -/
def utf8EncodeChar (c : Nat) : List Nat :=
  if c ≤ 0x7F then [c]
  else if c ≤ 0x7FF then [0xC0 + c / 64, 0x80 + c % 64]
  else if c ≤ 0xFFFF then [0xE0 + c / 4096, 0x80 + c / 64 % 64, 0x80 + c % 64]
  else [0xF0 + c / 262144, 0x80 + c / 4096 % 64, 0x80 + c / 64 % 64, 0x80 + c % 64]

/-- UTF-8 encoding of a sequence of scalar values. -/
def utf8Encode : List Nat → List Nat
  | [] => []
  | c :: t => utf8EncodeChar c ++ utf8Encode t

/-- Continuation-byte test of the UTF-8 decoder. -/
def utf8Cont (b : Nat) : Bool :=
  0x80 ≤ b ∧ b ≤ 0xBF

/-- Value of a two-byte UTF-8 sequence, `none` when ill-formed.  The lead
range C2..DF makes the value at least U+0080, so no overlong check is
needed, exactly as in the WHATWG Encoding Standard. -/
def utf8Val2 (b b1 : Nat) : Option Nat :=
  if (0xC2 ≤ b ∧ b ≤ 0xDF) ∧ utf8Cont b1 then some ((b - 0xC0) * 64 + (b1 - 0x80))
  else none

/-- Value of a three-byte UTF-8 sequence, `none` when ill-formed.  The value
conditions (at least U+0800, not a surrogate) are equivalent to the
per-lead-byte second-byte ranges of the WHATWG Encoding Standard. -/
def utf8Val3 (b b1 b2 : Nat) : Option Nat :=
  if (0xE0 ≤ b ∧ b ≤ 0xEF) ∧ utf8Cont b1 ∧ utf8Cont b2 then
    if 0x800 ≤ (b - 0xE0) * 4096 + (b1 - 0x80) * 64 + (b2 - 0x80) ∧
        ((b - 0xE0) * 4096 + (b1 - 0x80) * 64 + (b2 - 0x80) < 0xD800 ∨
         0xDFFF < (b - 0xE0) * 4096 + (b1 - 0x80) * 64 + (b2 - 0x80)) then
      some ((b - 0xE0) * 4096 + (b1 - 0x80) * 64 + (b2 - 0x80))
    else none
  else none

/-- Value of a four-byte UTF-8 sequence, `none` when ill-formed.  The value
conditions (in U+10000..U+10FFFF) are equivalent to the per-lead-byte
second-byte ranges of the WHATWG Encoding Standard. -/
def utf8Val4 (b b1 b2 b3 : Nat) : Option Nat :=
  if (0xF0 ≤ b ∧ b ≤ 0xF4) ∧ utf8Cont b1 ∧ utf8Cont b2 ∧ utf8Cont b3 then
    if 0x10000 ≤ (b - 0xF0) * 262144 + (b1 - 0x80) * 4096 + (b2 - 0x80) * 64 + (b3 - 0x80) ∧
        (b - 0xF0) * 262144 + (b1 - 0x80) * 4096 + (b2 - 0x80) * 64 + (b3 - 0x80) ≤ 0x10FFFF then
      some ((b - 0xF0) * 262144 + (b1 - 0x80) * 4096 + (b2 - 0x80) * 64 + (b3 - 0x80))
    else none
  else none

/-- Decode one UTF-8 character from the front of a byte list: the scalar
value and the remaining bytes, or `none` on any ill-formed prefix.  The
number of continuation bytes is dispatched on the lead byte as in the WHATWG
Encoding Standard: C2..DF two-byte, E0..EF three-byte, F0..F4 four-byte,
anything else (a stray continuation byte, C0, C1, or F5..FF) is an error. -/
def utf8DecodeOne : List Nat → Option (Nat × List Nat)
  | [] => none
  | b :: bs =>
    if b ≤ 0x7F then some (b, bs)
    else if 0xC2 ≤ b ∧ b ≤ 0xDF then
      match bs with
      | b1 :: bs1 =>
        match utf8Val2 b b1 with
        | some v => some (v, bs1)
        | none => none
      | [] => none
    else if 0xE0 ≤ b ∧ b ≤ 0xEF then
      match bs with
      | b1 :: b2 :: bs2 =>
        match utf8Val3 b b1 b2 with
        | some v => some (v, bs2)
        | none => none
      | _ => none
    else if 0xF0 ≤ b ∧ b ≤ 0xF4 then
      match bs with
      | b1 :: b2 :: b3 :: bs3 =>
        match utf8Val4 b b1 b2 b3 with
        | some v => some (v, bs3)
        | none => none
      | _ => none
    else none

/-- Fuel-indexed loop of the strict UTF-8 decoder.  Each step consumes at
least one byte, so any fuel of at least the list length gives the decoder
semantics; the fuel exists only to make the recursion structural. -/
def utf8DecAux : Nat → List Nat → Option (List Nat)
  | _, [] => some []
  | 0, _ :: _ => none
  | fuel + 1, b :: bs =>
    match utf8DecodeOne (b :: bs) with
    | some (v, rest) => (utf8DecAux fuel rest).map (fun t => v :: t)
    | none => none

/-- Strict (fatal-mode) UTF-8 decoding, modelled from the WHATWG Encoding
Standard UTF-8 decoder: `none` exactly when the input is not well-formed
UTF-8 (overlongs, surrogates and values above U+10FFFF all rejected). -/
def utf8DecodeStrict (l : List Nat) : Option (List Nat) :=
  utf8DecAux (byteLength l) l

/-- Modelled from the WHATWG Encoding Standard: the gb18030 index.  The full
table has 23940 entries; it is specified here only at the single pointer this
development evaluates.  Pointer 12892 is the one selected by the byte pair
`C4 E3`, which the repository spec fixes as U+4F60. -/
def gb18030Index (pointer : Nat) : Option Nat :=
  if pointer = 12892 then some 0x4F60 else none

/-- Modelled from the WHATWG Encoding Standard: the gb18030 decoder in
non-fatal mode, which `TextDecoder` uses for both the `gbk` and the `gb2312`
label.  ASCII bytes decode to themselves, `0x80` to U+20AC, a lead byte
`0x81..0xFE` followed by a trail byte `0x40..0x7E` or `0x80..0xFE` selects a
pointer into the gb18030 index; every other sequence is a decode error,
emitted as U+FFFD, with an ASCII trail byte reprocessed after the error
(the restore step of the standard).  The four-byte gb18030 sequences
(digit trail bytes) are outside the scope of this development and are
modelled as decode errors. -/
def gbkDecode : List Nat → List Nat
  | [] => []
  | [b] =>
    if b ≤ 0x7F then [b]
    else if b = 0x80 then [0x20AC]
    else [0xFFFD]
  | b :: b2 :: bs2 =>
    if b ≤ 0x7F then b :: gbkDecode (b2 :: bs2)
    else if b = 0x80 then 0x20AC :: gbkDecode (b2 :: bs2)
    else if b ≤ 0xFE then
      if (0x40 ≤ b2 ∧ b2 ≤ 0x7E) ∨ (0x80 ≤ b2 ∧ b2 ≤ 0xFE) then
        match gb18030Index ((b - 0x81) * 190 + (b2 - if b2 < 0x7F then 0x40 else 0x41)) with
        | some cp => cp :: gbkDecode bs2
        | none => if b2 ≤ 0x7F then 0xFFFD :: gbkDecode (b2 :: bs2) else 0xFFFD :: gbkDecode bs2
      else if b2 ≤ 0x7F then 0xFFFD :: gbkDecode (b2 :: bs2)
      else 0xFFFD :: gbkDecode bs2
    else 0xFFFD :: gbkDecode (b2 :: bs2)

/-- Modelled from the WHATWG Encoding Standard: the Big5 index, specified at
no pointer (every lookup this development performs is a miss). -/
def big5Index (_pointer : Nat) : Option Nat :=
  none

/-- Modelled from the WHATWG Encoding Standard: the Big5 decoder in non-fatal
mode.  ASCII bytes decode to themselves, a lead byte `0x81..0xFE` followed by
a trail byte `0x40..0x7E` or `0xA1..0xFE` selects a pointer; pointers 1133,
1135, 1164 and 1166 emit two code points; other sequences are decode errors
with the ASCII-restore step of the standard. -/
def big5Decode : List Nat → List Nat
  | [] => []
  | [b] =>
    if b ≤ 0x7F then [b]
    else [0xFFFD]
  | b :: b2 :: bs2 =>
    if b ≤ 0x7F then b :: big5Decode (b2 :: bs2)
    else if 0x81 ≤ b ∧ b ≤ 0xFE then
      if (0x40 ≤ b2 ∧ b2 ≤ 0x7E) ∨ (0xA1 ≤ b2 ∧ b2 ≤ 0xFE) then
        if (b - 0x81) * 157 + (b2 - if b2 < 0x7F then 0x40 else 0x62) = 1133 then
          0x00CA :: 0x0304 :: big5Decode bs2
        else if (b - 0x81) * 157 + (b2 - if b2 < 0x7F then 0x40 else 0x62) = 1135 then
          0x00CA :: 0x030C :: big5Decode bs2
        else if (b - 0x81) * 157 + (b2 - if b2 < 0x7F then 0x40 else 0x62) = 1164 then
          0x00EA :: 0x0304 :: big5Decode bs2
        else if (b - 0x81) * 157 + (b2 - if b2 < 0x7F then 0x40 else 0x62) = 1166 then
          0x00EA :: 0x030C :: big5Decode bs2
        else
          match big5Index ((b - 0x81) * 157 + (b2 - if b2 < 0x7F then 0x40 else 0x62)) with
          | some cp => cp :: big5Decode bs2
          | none => if b2 ≤ 0x7F then 0xFFFD :: big5Decode (b2 :: bs2) else 0xFFFD :: big5Decode bs2
      else if b2 ≤ 0x7F then 0xFFFD :: big5Decode (b2 :: bs2)
      else 0xFFFD :: big5Decode bs2
    else 0xFFFD :: big5Decode (b2 :: bs2)

/-- Modelled from the WHATWG Encoding Standard: the jis0208 index, specified
at no pointer (every lookup this development performs is a miss). -/
def jis0208Index (_pointer : Nat) : Option Nat :=
  none

/-- Modelled from the WHATWG Encoding Standard: the Shift-JIS decoder in
non-fatal mode.  Bytes up to `0x80` decode to themselves, `0xA1..0xDF` to the
halfwidth katakana block, a lead byte `0x81..0x9F` or `0xE0..0xFC` followed by
a trail byte `0x40..0x7E` or `0x80..0xFC` selects a jis0208 pointer (pointers
8836..10715 map to the U+E000 private range); other sequences are decode
errors with the ASCII-restore step of the standard. -/
def shiftJisDecode : List Nat → List Nat
  | [] => []
  | [b] =>
    if b ≤ 0x80 then [b]
    else if 0xA1 ≤ b ∧ b ≤ 0xDF then [0xFF61 + (b - 0xA1)]
    else [0xFFFD]
  | b :: b2 :: bs2 =>
    if b ≤ 0x80 then b :: shiftJisDecode (b2 :: bs2)
    else if 0xA1 ≤ b ∧ b ≤ 0xDF then (0xFF61 + (b - 0xA1)) :: shiftJisDecode (b2 :: bs2)
    else if (0x81 ≤ b ∧ b ≤ 0x9F) ∨ (0xE0 ≤ b ∧ b ≤ 0xFC) then
      if (0x40 ≤ b2 ∧ b2 ≤ 0x7E) ∨ (0x80 ≤ b2 ∧ b2 ≤ 0xFC) then
        if 8836 ≤ (b - if b < 0xA0 then 0x81 else 0xC1) * 188 + (b2 - if b2 < 0x7F then 0x40 else 0x41) ∧
            (b - if b < 0xA0 then 0x81 else 0xC1) * 188 + (b2 - if b2 < 0x7F then 0x40 else 0x41) ≤ 10715 then
          (0xE000 + ((b - if b < 0xA0 then 0x81 else 0xC1) * 188 +
            (b2 - if b2 < 0x7F then 0x40 else 0x41) - 8836)) :: shiftJisDecode bs2
        else
          match jis0208Index ((b - if b < 0xA0 then 0x81 else 0xC1) * 188 +
              (b2 - if b2 < 0x7F then 0x40 else 0x41)) with
          | some cp => cp :: shiftJisDecode bs2
          | none => if b2 ≤ 0x7F then 0xFFFD :: shiftJisDecode (b2 :: bs2) else 0xFFFD :: shiftJisDecode bs2
      else if b2 ≤ 0x7F then 0xFFFD :: shiftJisDecode (b2 :: bs2)
      else 0xFFFD :: shiftJisDecode bs2
    else 0xFFFD :: shiftJisDecode (b2 :: bs2)

/-- The acceptance test of the legacy-encoding tier, from the source line
`if (replacementCount / decoded.length < 0.1)`.  The JavaScript comparison is
between IEEE doubles; for every representable string length (below `2^53`)
the double comparison coincides with the exact rational comparison
`count / length < 1/10`, stated here as `10 * count < length`.  An empty
decoded string gives `0 / 0 = NaN` in JavaScript, which compares false; here
`10 * 0 < 0` is false as well, so no special case is needed. -/
def ratioBelow (decoded : List Nat) : Bool :=
  10 * decoded.count 0xFFFD < decoded.length

/-- The ordered decoder list of the legacy tier, from the source line
`const encodings = ['gbk', 'gb2312', 'big5', 'shift-jis']`.  The labels `gbk`
and `gb2312` both name the gb18030 decoder in the WHATWG Encoding Standard. -/
def legacyDecoders : List (List Nat → List Nat) :=
  [gbkDecode, gbkDecode, big5Decode, shiftJisDecode]

/-- The legacy-tier loop of `smartDecodeFileName`: try each decoder in order,
return the first decoding that passes the replacement-ratio test.  The
`try/catch` of the source is vacuous here because non-fatal decoding never
throws. -/
def tryLegacy : List (List Nat → List Nat) → List Nat → Option (List Nat)
  | [], _ => none
  | d :: ds, bytes =>
    if ratioBelow (d bytes) then some (d bytes) else tryLegacy ds bytes

/-- Shallow embedding of `smartDecodeFileName` (source lines 28..68): the
four-tier encoding sniffer.  Tier 1 is the all-ASCII scan followed by
`TextDecoder('ascii')`; tier 2 strict UTF-8; tier 3 the legacy decoders with
the replacement-ratio test; tier 4 `TextDecoder('latin1')`.  Both tier 1 and
tier 4 use the windows-1252 decoder, which is what the WHATWG Encoding
Standard assigns to those two labels. -/
def smartDecodeFileName (bytes : List Nat) : List Nat :=
  if bytes.all (fun b => b ≤ 127) then win1252Decode bytes
  else
    match utf8DecodeStrict bytes with
    | some decoded => decoded
    | none =>
      match tryLegacy legacyDecoders bytes with
      | some decoded => decoded
      | none => win1252Decode bytes

/-- The byte of `buf` at index `i`, as `view.getUint8(i)` returns it for an
in-bounds index.  Every use in this development is guarded so that `i` is in
bounds, matching the DataView bounds the source relies on. -/
def byteAt (buf : List Nat) (i : Nat) : Nat :=
  (buf.drop i).headD 0

/-- The all-zero test on the 512-byte block at `o` (source lines 716..724):
the end-of-archive marker check.  Under the loop guard the whole block is in
bounds, so the in-bounds condition of the source loop is vacuous. -/
def isZeroBlock (buf : List Nat) (o : Nat) : Bool :=
  ((buf.drop o).take 512).all (fun b => b = 0)

/-- The name bytes of the header at `o` (source lines 727..734): the first
100 bytes of the block, truncated at the first NUL. -/
def headerName (buf : List Nat) (o : Nat) : List Nat :=
  ((buf.drop o).take 100).takeWhile (fun b => b ≠ 0)

/-- The decoded name of the header at `o` (source line 737). -/
def decodedName (buf : List Nat) (o : Nat) : List Nat :=
  smartDecodeFileName (headerName buf o)

/-- The raw size field of the header at `o` (source lines 742..747): bytes
124..135 of the block, read until a NUL or a space. -/
def sizeField (buf : List Nat) (o : Nat) : List Nat :=
  ((buf.drop (o + 124)).take 12).takeWhile (fun b => b ≠ 0 ∧ b ≠ 32)

/-- The ECMAScript whitespace set restricted to char codes below 256, as used
by `String.prototype.trim`: TAB, LF, VT, FF, CR, SP and NBSP. -/
def jsIsWhitespace (c : Nat) : Bool :=
  c = 9 ∨ c = 10 ∨ c = 11 ∨ c = 12 ∨ c = 13 ∨ c = 32 ∨ c = 160

/-- `String.prototype.trim`: strip leading and trailing whitespace. -/
def jsTrim (s : List Nat) : List Nat :=
  ((s.dropWhile jsIsWhitespace).reverse.dropWhile jsIsWhitespace).reverse

/-- Char codes of the octal digits accepted by `parseInt` with radix 8. -/
def isOctDigit (c : Nat) : Bool :=
  48 ≤ c ∧ c ≤ 55

/-- Value of a (non-empty) octal digit string. -/
def octValue (ds : List Nat) : Nat :=
  ds.foldl (fun acc d => acc * 8 + (d - 48)) 0

/-- `parseInt(s, 8)` on an already-trimmed string: an optional sign followed
by the longest prefix of octal digits; `none` models NaN (no digits).  The
sign is consumed before the digits, so a negative size field parses to a
negative number, exactly as in ECMAScript.  The field is at most 12 chars, so
the double-precision `parseInt` result is exact and `Int` is faithful. -/
def jsParseIntOct (s : List Nat) : Option Int :=
  match s with
  | 45 :: rest =>
    if (rest.takeWhile isOctDigit).isEmpty then none
    else some (-(octValue (rest.takeWhile isOctDigit) : Int))
  | 43 :: rest =>
    if (rest.takeWhile isOctDigit).isEmpty then none
    else some ((octValue (rest.takeWhile isOctDigit) : Int))
  | _ =>
    if (s.takeWhile isOctDigit).isEmpty then none
    else some ((octValue (s.takeWhile isOctDigit) : Int))

/-- Source line 749: `const fileSize = parseInt(sizeStr.trim(), 8) || 0`.
`NaN || 0` and `-0 || 0` give `0`; every nonzero value, including a negative
one, passes through. -/
def jsParseSize (s : List Nat) : Int :=
  match jsParseIntOct (jsTrim s) with
  | none => 0
  | some n => n

/-- The parsed size of the header at `o` (source lines 742..749). -/
def entrySize (buf : List Nat) (o : Nat) : Int :=
  jsParseSize (sizeField buf o)

/-- The type-flag byte of the header at `o` (source line 752). -/
def typeFlag (buf : List Nat) (o : Nat) : Nat :=
  byteAt buf (o + 156)

/-- `fileName.endsWith('/')` on a decoded name: the last code point is `/`.
The empty string gives `false`, as in ECMAScript. -/
def jsEndsWithSlash (s : List Nat) : Bool :=
  s.getLast? = some 47

/-- `Math.ceil(n / 512)` for an integral double `n`: division by a power of
two is exact in double precision, so this is the exact integer ceiling. -/
def ceilDiv512 (n : Int) : Int :=
  (n + 511).ediv 512

/-- Outcome of one iteration of the `extractTar` scanning loop. -/
inductive TarStep where
  | stop : TarStep
  | fail : TarStep
  | next (newOffset : Int) (entry : Option (List Nat × List Nat)) : TarStep
deriving DecidableEq

/-- One iteration of the scanning loop of `extractTar` (source lines
715..777).  `stop` is a silent loop exit (guard false, zero block, or empty
decoded name); `fail` is the RangeError a DataView read at a negative offset
throws (reachable only after a negative cursor advance); `next` carries the
new cursor and the entry emitted by this iteration, if any.  The emitted
content is `arrayBuffer.slice(offset, offset + fileSize)`, which clamps at
the end of the buffer. -/
def tarStep (buf : List Nat) (offset : Int) : TarStep :=
  if offset < (byteLength buf : Int) - 512 then
    if offset < 0 then .fail
    else if isZeroBlock buf offset.toNat then .stop
    else if decodedName buf offset.toNat = [] then .stop
    else
      .next (offset + 512 + ceilDiv512 (entrySize buf offset.toNat) * 512)
        (if 0 < entrySize buf offset.toNat ∧
            jsEndsWithSlash (decodedName buf offset.toNat) = false ∧
            (typeFlag buf offset.toNat = 0 ∨ typeFlag buf offset.toNat = 48)
         then some (decodedName buf offset.toNat,
             (buf.drop (offset.toNat + 512)).take (entrySize buf offset.toNat).toNat)
         else none)
  else .stop

/-- The entry emitted by a loop iteration, if any. -/
def stepEntry : TarStep → Option (List Nat × List Nat)
  | .stop => none
  | .fail => none
  | .next _ e => e

/-- Result of a completed `extractTar` call: the single error condition the
function can raise (the caught-and-rethrown generic failure, which also
covers the explicit no-valid-files throw of source lines 779..781), or the
emitted entries in scan order.  The source stores entries in the
`extractedFiles` object keyed by full name; the object is reset to empty
before each extraction, and it is empty exactly when this list is empty. -/
inductive TarResult where
  | err : TarResult
  | ok (entries : List (List Nat × List Nat)) : TarResult
deriving DecidableEq

/-- Fuel-indexed runner for the scanning loop.  The source loop has no fuel;
the fuel exists only because a Lean function must be total while the source
loop is not (see the C2 analysis).  `none` means the fuel ran out, so a
result of `some r` certifies that the source loop finishes with result `r`
within the given number of iterations. -/
def tarRunAux (buf : List Nat) : Nat → Int → List (List Nat × List Nat) → Option TarResult
  | 0, _, _ => none
  | fuel + 1, offset, acc =>
    match tarStep buf offset with
    | .stop => some (if acc.isEmpty then .err else .ok acc)
    | .fail => some .err
    | .next newOffset e => tarRunAux buf fuel newOffset (acc ++ e.toList)

/-- Shallow embedding of `extractTar` (source lines 706..787) on a byte
buffer: run the scanning loop from offset 0 with no entries, then raise the
malformed-or-empty condition when no entry was emitted. -/
def extractTar (buf : List Nat) (fuel : Nat) : Option TarResult :=
  tarRunAux buf fuel 0 []

/-- A well-formed one-entry archive: a header block for `a.txt` (name bytes
at offset 0, octal size `5` at offset 124, type flag `'0'` at offset 156),
one content block starting with the bytes of `hello`, and one zero block. -/
def tarBufHello : List Nat :=
  ([97, 46, 116, 120, 116] ++ List.replicate 119 0 ++ [53] ++ List.replicate 31 0 ++
    [48] ++ List.replicate 355 0) ++
  ([104, 101, 108, 108, 111] ++ List.replicate 507 0) ++
  List.replicate 512 0

/-- A header block for `a` whose size field holds the ASCII bytes `-1000`
(octal value -512), followed by one more block so that the loop guard lets
the header be processed. -/
def tarBufLoop : List Nat :=
  ([97] ++ List.replicate 123 0 ++ [45, 49, 48, 48, 48] ++ List.replicate 27 0 ++
    [48] ++ List.replicate 355 0) ++
  List.replicate 512 0

/-- A single well-formed 512-byte header block for `a.txt` (size 5, type
flag `'0'`) with nothing after it. -/
def tarBufOneHeader : List Nat :=
  [97, 46, 116, 120, 116] ++ List.replicate 119 0 ++ [53] ++ List.replicate 31 0 ++
    [48] ++ List.replicate 355 0

/-- A good entry (`a`, size 5, content starting with the bytes of `hello`)
followed by a header for `b` whose size field holds `-7777` (octal value
-4095), which makes the cursor advance negative, and a trailing zero block. -/
def tarBufNegJump : List Nat :=
  ([97] ++ List.replicate 123 0 ++ [53] ++ List.replicate 31 0 ++ [48] ++ List.replicate 355 0) ++
  ([104, 101, 108, 108, 111] ++ List.replicate 507 0) ++
  ([98] ++ List.replicate 123 0 ++ [45, 55, 55, 55, 55] ++ List.replicate 27 0 ++
    [48] ++ List.replicate 355 0) ++
  List.replicate 512 0

/-- A header for `b` whose size field holds the ASCII bytes `zzz`, which is
not octal, followed by one more block. -/
def tarBufGarbageSize : List Nat :=
  ([98] ++ List.replicate 123 0 ++ [122, 122, 122] ++ List.replicate 29 0 ++
    [48] ++ List.replicate 355 0) ++
  List.replicate 512 0

/-- A header for `c` claiming octal size `2000` (1024 bytes) while only 512
bytes follow the header: the emitted content must clamp at end-of-buffer. -/
def tarBufTruncated : List Nat :=
  ([99] ++ List.replicate 123 0 ++ [50, 48, 48, 48] ++ List.replicate 28 0 ++
    [48] ++ List.replicate 355 0) ++
  List.replicate 512 7

theorem byteLenAux_cons (a : Nat) (t : List Nat) (n : Nat) :
    byteLenAux (a :: t) n = byteLenAux t (n + 1) :=
  rfl

theorem byteLenAux_eq (l : List Nat) : ∀ n, byteLenAux l n = l.length + n := by
  induction l with
  | nil => intro n; rw [byteLenAux]; rw [List.length_nil]; omega
  | cons a t ih =>
    intro n
    rw [byteLenAux_cons, ih (n + 1), List.length_cons]
    omega

theorem byteLength_eq (l : List Nat) : byteLength l = l.length := by
  simp [byteLength, byteLenAux_eq]

theorem win1252Byte_ascii (b : Nat) (h : b ≤ 127) : win1252Byte b = b := by
  unfold win1252Byte
  repeat rw [if_neg (by omega)]

theorem win1252Decode_ascii (l : List Nat) (h : ∀ b ∈ l, b ≤ 127) : win1252Decode l = l := by
  unfold win1252Decode
  calc l.map win1252Byte = l.map id := List.map_congr_left fun b hb => win1252Byte_ascii b (h b hb)
  _ = l := List.map_id l

theorem win1252Decode_length (l : List Nat) : (win1252Decode l).length = l.length := by
  simp [win1252Decode]

theorem utf8DecodeOne_encodeChar (c : Nat) (hv : isValidScalar c) (rest : List Nat) :
    utf8DecodeOne (utf8EncodeChar c ++ rest) = some (c, rest) := by
  rcases Nat.lt_or_ge c 0x80 with h1 | h1
  · rw [utf8EncodeChar, if_pos (by omega : c ≤ 0x7F)]
    show utf8DecodeOne (c :: rest) = some (c, rest)
    simp only [utf8DecodeOne]
    rw [if_pos (by omega : c ≤ 0x7F)]
  · rcases Nat.lt_or_ge c 0x800 with h2 | h2
    · rw [utf8EncodeChar, if_neg (by omega), if_pos (by omega : c ≤ 0x7FF)]
      show utf8DecodeOne ((0xC0 + c / 64) :: (0x80 + c % 64) :: rest) = some (c, rest)
      simp only [utf8DecodeOne]
      rw [if_neg (by omega), if_pos (by omega : 0xC2 ≤ 0xC0 + c / 64 ∧ 0xC0 + c / 64 ≤ 0xDF)]
      have hval : utf8Val2 (0xC0 + c / 64) (0x80 + c % 64) = some c := by
        rw [utf8Val2, if_pos]
        · congr 1
          omega
        · refine ⟨by omega, ?_⟩
          simp only [utf8Cont, decide_eq_true_eq]
          omega
      rw [hval]
    · rcases Nat.lt_or_ge c 0x10000 with h3 | h3
      · rw [utf8EncodeChar, if_neg (by omega), if_neg (by omega), if_pos (by omega : c ≤ 0xFFFF)]
        show utf8DecodeOne ((0xE0 + c / 4096) :: (0x80 + c / 64 % 64) :: (0x80 + c % 64) :: rest) =
          some (c, rest)
        simp only [utf8DecodeOne]
        rw [if_neg (by omega), if_neg (by omega : ¬(0xC2 ≤ 0xE0 + c / 4096 ∧ 0xE0 + c / 4096 ≤ 0xDF)),
          if_pos (by omega : 0xE0 ≤ 0xE0 + c / 4096 ∧ 0xE0 + c / 4096 ≤ 0xEF)]
        have hval : utf8Val3 (0xE0 + c / 4096) (0x80 + c / 64 % 64) (0x80 + c % 64) = some c := by
          rw [utf8Val3, if_pos, if_pos]
          · congr 1
            omega
          · rcases hv with hv | hv <;> omega
          · refine ⟨by omega, ?_, ?_⟩ <;>
              simp only [utf8Cont, decide_eq_true_eq] <;> omega
        rw [hval]
      · have hcap : c ≤ 0x10FFFF := by rcases hv with hv | hv <;> omega
        rw [utf8EncodeChar, if_neg (by omega), if_neg (by omega), if_neg (by omega)]
        show utf8DecodeOne ((0xF0 + c / 262144) :: (0x80 + c / 4096 % 64) ::
          (0x80 + c / 64 % 64) :: (0x80 + c % 64) :: rest) = some (c, rest)
        simp only [utf8DecodeOne]
        rw [if_neg (by omega),
          if_neg (by omega : ¬(0xC2 ≤ 0xF0 + c / 262144 ∧ 0xF0 + c / 262144 ≤ 0xDF)),
          if_neg (by omega : ¬(0xE0 ≤ 0xF0 + c / 262144 ∧ 0xF0 + c / 262144 ≤ 0xEF)),
          if_pos (by omega : 0xF0 ≤ 0xF0 + c / 262144 ∧ 0xF0 + c / 262144 ≤ 0xF4)]
        have hval : utf8Val4 (0xF0 + c / 262144) (0x80 + c / 4096 % 64)
            (0x80 + c / 64 % 64) (0x80 + c % 64) = some c := by
          rw [utf8Val4, if_pos, if_pos]
          · congr 1
            omega
          · omega
          · refine ⟨by omega, ?_, ?_, ?_⟩ <;>
              simp only [utf8Cont, decide_eq_true_eq] <;> omega
        rw [hval]

theorem utf8DecodeOne_shrinks (l : List Nat) (v : Nat) (rest : List Nat)
    (h : utf8DecodeOne l = some (v, rest)) : rest.length < l.length := by
  match l with
  | [] => simp [utf8DecodeOne] at h
  | b :: bs =>
    simp only [utf8DecodeOne] at h
    split_ifs at h with h1 h2 h3 h4
    · cases h
      simp only [List.length_cons]
      omega
    · match bs with
      | [] => cases h
      | b1 :: bs1 =>
        dsimp only at h
        cases hv : utf8Val2 b b1 <;> rw [hv] at h
        · cases h
        · cases h
          simp only [List.length_cons]
          omega
    · match bs with
      | [] => cases h
      | [b1] => cases h
      | b1 :: b2 :: bs2 =>
        dsimp only at h
        cases hv : utf8Val3 b b1 b2 <;> rw [hv] at h
        · cases h
        · cases h
          simp only [List.length_cons]
          omega
    · match bs with
      | [] => cases h
      | [b1] => cases h
      | [b1, b2] => cases h
      | b1 :: b2 :: b3 :: bs3 =>
        dsimp only at h
        cases hv : utf8Val4 b b1 b2 b3 <;> rw [hv] at h
        · cases h
        · cases h
          simp only [List.length_cons]
          omega

theorem utf8DecAux_nil (f : Nat) : utf8DecAux f [] = some [] := by
  cases f <;> rw [utf8DecAux]

theorem utf8DecAux_irrel (n : Nat) : ∀ (l : List Nat) (f1 f2 : Nat),
    l.length ≤ n → l.length ≤ f1 → l.length ≤ f2 → utf8DecAux f1 l = utf8DecAux f2 l := by
  induction n with
  | zero =>
    intro l f1 f2 hn _ _
    match l with
    | [] => rw [utf8DecAux_nil, utf8DecAux_nil]
    | b :: bs => simp at hn
  | succ n ih =>
    intro l f1 f2 hn h1 h2
    match l with
    | [] => rw [utf8DecAux_nil, utf8DecAux_nil]
    | b :: bs =>
      match f1, f2 with
      | f1 + 1, f2 + 1 =>
        rw [utf8DecAux, utf8DecAux]
        cases hone : utf8DecodeOne (b :: bs) with
        | none => rfl
        | some p =>
          obtain ⟨v, rest⟩ := p
          have hlt := utf8DecodeOne_shrinks _ _ _ hone
          simp only [List.length_cons] at hlt hn h1 h2
          dsimp only
          rw [ih rest f1 f2 (by omega) (by omega) (by omega)]

theorem utf8DecodeStrict_step (l : List Nat) (v : Nat) (rest : List Nat)
    (hone : utf8DecodeOne l = some (v, rest)) :
    utf8DecodeStrict l = (utf8DecodeStrict rest).map (fun t => v :: t) := by
  match l with
  | [] => simp [utf8DecodeOne] at hone
  | b :: bs =>
    have hlt := utf8DecodeOne_shrinks _ _ _ hone
    simp only [List.length_cons] at hlt
    rw [utf8DecodeStrict, utf8DecodeStrict, byteLength_eq, byteLength_eq, List.length_cons,
      utf8DecAux, hone]
    dsimp only
    rw [utf8DecAux_irrel rest.length rest bs.length rest.length le_rfl (by omega) le_rfl]

theorem utf8DecodeStrict_encode (s : List Nat) (hv : ∀ c ∈ s, isValidScalar c) :
    utf8DecodeStrict (utf8Encode s) = some s := by
  induction s with
  | nil => rfl
  | cons c t ih =>
    have hvc : isValidScalar c := hv c (by simp)
    have hvt : ∀ x ∈ t, isValidScalar x := fun x hx => hv x (by simp [hx])
    rw [utf8Encode, utf8DecodeStrict_step _ c (utf8Encode t) (utf8DecodeOne_encodeChar c hvc _),
      ih hvt]
    rfl

theorem utf8EncodeChar_head_nonascii (c : Nat) (hc : 127 < c) :
    ∃ b bs, utf8EncodeChar c = b :: bs ∧ 127 < b := by
  rw [utf8EncodeChar]
  split_ifs with h1 h2 h3
  · omega
  · exact ⟨_, _, rfl, by omega⟩
  · exact ⟨_, _, rfl, by omega⟩
  · exact ⟨_, _, rfl, by omega⟩

theorem utf8Encode_not_ascii (s : List Nat) (h : ∃ c ∈ s, 127 < c) :
    (utf8Encode s).all (fun b => b ≤ 127) = false := by
  induction s with
  | nil => simp at h
  | cons c t ih =>
    rw [utf8Encode, List.all_append]
    rcases h with ⟨x, hx, hxgt⟩
    rcases List.mem_cons.mp hx with rfl | hxt
    · obtain ⟨b, bs, hb, hbgt⟩ := utf8EncodeChar_head_nonascii x hxgt
      rw [hb]
      have : (b :: bs).all (fun b => b ≤ 127) = false := by
        simp only [List.all_cons, Bool.and_eq_false_iff]
        left
        simp only [decide_eq_false_iff_not]
        omega
      rw [this, Bool.false_and]
    · rw [ih ⟨x, hxt, hxgt⟩, Bool.and_false]

theorem tryLegacy_eq_find (ds : List (List Nat → List Nat)) (bytes : List Nat) :
    tryLegacy ds bytes = (ds.map (fun d => d bytes)).find? ratioBelow := by
  induction ds with
  | nil => rfl
  | cons d ds ih =>
    rw [tryLegacy, List.map_cons]
    cases hr : ratioBelow (d bytes) with
    | true => rw [if_pos rfl, List.find?_cons_of_pos _ hr]
    | false =>
      rw [if_neg Bool.false_ne_true, ih,
        List.find?_cons_of_neg _ (by rw [hr]; exact Bool.false_ne_true)]

/-- C6: on a byte sequence in which every byte is at most 127, the sniffer
takes the all-ASCII branch, whose windows-1252 decode is the identity on
those byte values, so the result is the exact ASCII string, one code point
per byte; the UTF-8, legacy and Latin-1 tiers are never consulted. -/
theorem claim_C6_ascii_identity (bytes : List Nat) (h : ∀ b ∈ bytes, b ≤ 127) :
    smartDecodeFileName bytes = bytes := by
  rw [smartDecodeFileName,
    if_pos (by simp only [List.all_eq_true, decide_eq_true_eq]; exact h)]
  exact win1252Decode_ascii bytes h

/-- Witness for C6 at the ASCII name `a.txt`. -/
theorem claim_C6_witness :
    smartDecodeFileName [97, 46, 116, 120, 116] = [97, 46, 116, 120, 116] :=
  claim_C6_ascii_identity [97, 46, 116, 120, 116] (by decide)

/-- C7: for a string with at least one non-ASCII code point, the sniffer on
the valid UTF-8 encoding of the string skips the ASCII branch (some encoded
byte exceeds 127), the strict UTF-8 decode succeeds, and the original string
is returned: the fatal-mode decode round-trips the encoding. -/
theorem claim_C7_utf8_roundtrip (s : List Nat) (hv : ∀ c ∈ s, isValidScalar c)
    (hna : ∃ c ∈ s, 127 < c) :
    smartDecodeFileName (utf8Encode s) = s := by
  rw [smartDecodeFileName,
    if_neg (by rw [utf8Encode_not_ascii s hna]; exact Bool.false_ne_true),
    utf8DecodeStrict_encode s hv]

/-- Witness for C7 at the one-character string U+4F60. -/
theorem claim_C7_witness : smartDecodeFileName (utf8Encode [0x4F60]) = [0x4F60] :=
  claim_C7_utf8_roundtrip [0x4F60] (by decide) (by decide)

/-- C8: the legacy tier tries the decoders of the labels gbk, gb2312, big5
and shift-jis in that order (the first two are the same gb18030 decoder) and
returns the first decoding whose replacement-character ratio is strictly
below 0.1; an empty decoding fails the ratio test (the NaN comparison is
false) instead of crashing; and on the GBK bytes `C4 E3`, which strict UTF-8
rejects, the sniffer returns the GBK decoding U+4F60 and not the
windows-1252 (Latin-1 tier) decoding of those bytes. -/
theorem claim_C8_legacy_cascade :
    (∀ ds bytes, tryLegacy ds bytes = (ds.map (fun d => d bytes)).find? ratioBelow) ∧
    ratioBelow [] = false ∧
    legacyDecoders = [gbkDecode, gbkDecode, big5Decode, shiftJisDecode] ∧
    utf8DecodeStrict [0xC4, 0xE3] = none ∧
    smartDecodeFileName [0xC4, 0xE3] = gbkDecode [0xC4, 0xE3] ∧
    gbkDecode [0xC4, 0xE3] = [0x4F60] ∧
    smartDecodeFileName [0xC4, 0xE3] ≠ win1252Decode [0xC4, 0xE3] :=
  ⟨tryLegacy_eq_find, rfl, rfl, by decide, by decide, by decide, by decide⟩

/-- C9: the sniffer is total by construction (it is a Lean function into
strings, mirroring that every tier of the source either returns or falls
through, and the last tier never throws); whenever the ASCII scan fails, the
strict UTF-8 decode rejects, and every legacy decoding fails the ratio test,
the result is the windows-1252 (label latin1) decoding, whose length equals
the input byte length because that decoder maps each byte to exactly one
code point. -/
theorem claim_C9_latin1_fallback (bytes : List Nat)
    (h1 : bytes.all (fun b => b ≤ 127) = false)
    (h2 : utf8DecodeStrict bytes = none)
    (h3 : tryLegacy legacyDecoders bytes = none) :
    smartDecodeFileName bytes = win1252Decode bytes ∧
    (smartDecodeFileName bytes).length = bytes.length := by
  have hmain : smartDecodeFileName bytes = win1252Decode bytes := by
    rw [smartDecodeFileName, if_neg (by rw [h1]; exact Bool.false_ne_true)]
    rw [h2]
    dsimp only
    rw [h3]
  exact ⟨hmain, by rw [hmain]; exact win1252Decode_length bytes⟩

/-- Witness for C9 at the bytes `FF FF`, which no tier before the fallback
accepts. -/
theorem claim_C9_witness :
    smartDecodeFileName [0xFF, 0xFF] = win1252Decode [0xFF, 0xFF] ∧
    (smartDecodeFileName [0xFF, 0xFF]).length = [0xFF, 0xFF].length :=
  claim_C9_latin1_fallback [0xFF, 0xFF] (by decide) (by decide) (by decide)

theorem headerName_nil_of_zeroBlock (buf : List Nat) (o : Nat)
    (h : isZeroBlock buf o = true) : headerName buf o = [] := by
  rw [isZeroBlock] at h
  have hz : ∀ x ∈ (buf.drop o).take 512, x = 0 := by
    intro x hx
    simpa using List.all_eq_true.mp h x hx
  have hsub : ∀ x ∈ (buf.drop o).take 100, x = 0 := by
    intro x hx
    apply hz
    have ht : (buf.drop o).take 100 = ((buf.drop o).take 512).take 100 := by
      rw [List.take_take]
      norm_num
    exact List.mem_of_mem_take (ht ▸ hx)
  rw [headerName]
  cases h100 : (buf.drop o).take 100 with
  | nil => rfl
  | cons a t =>
    have ha : a = 0 := hsub a (h100 ▸ List.mem_cons_self a t)
    rw [List.takeWhile_cons]
    simp [ha]

theorem decodedName_of_zeroBlock (buf : List Nat) (o : Nat)
    (h : isZeroBlock buf o = true) : decodedName buf o = [] := by
  rw [decodedName, headerName_nil_of_zeroBlock buf o h]
  rfl

theorem toNat_natCast_eq (n : Nat) : ((n : Int)).toNat = n := by omega

/-- C1: a header reached by the scanning loop emits an entry exactly when
its decoded name is non-empty and does not end in a slash, its parsed octal
size is positive and its type-flag byte is 0 or 48; the emitted content is
the slice of `size` bytes that starts right after the 512-byte header (a
slice that clamps at end-of-buffer, as `ArrayBuffer.slice` does).  On the
concrete one-entry archive with name `a.txt` and five content bytes `hello`
followed by a zero block, the parser returns exactly that one entry. -/
theorem claim_C1_entry_emission (buf : List Nat) (o : Nat)
    (h : (o : Int) < (byteLength buf : Int) - 512) :
    (stepEntry (tarStep buf o) =
      if decodedName buf o ≠ [] ∧ 0 < entrySize buf o ∧
          jsEndsWithSlash (decodedName buf o) = false ∧
          (typeFlag buf o = 0 ∨ typeFlag buf o = 48)
       then some (decodedName buf o, (buf.drop (o + 512)).take (entrySize buf o).toNat)
       else none) ∧
    extractTar tarBufHello 8 =
      some (TarResult.ok [([97, 46, 116, 120, 116], [104, 101, 108, 108, 111])]) := by
  refine ⟨?_, by decide⟩
  rw [tarStep, if_pos h, if_neg (by omega : ¬ (o : Int) < 0), toNat_natCast_eq]
  by_cases hz : isZeroBlock buf o = true
  · rw [if_pos hz]
    have hnm := decodedName_of_zeroBlock buf o hz
    rw [stepEntry, if_neg (fun hc => hc.1 hnm)]
  · rw [if_neg hz]
    by_cases hn : decodedName buf o = []
    · rw [if_pos hn, stepEntry, if_neg (fun hc => hc.1 hn)]
    · rw [if_neg hn]
      by_cases hc : 0 < entrySize buf o ∧ jsEndsWithSlash (decodedName buf o) = false ∧
          (typeFlag buf o = 0 ∨ typeFlag buf o = 48)
      · rw [if_pos hc, if_pos ⟨hn, hc⟩, stepEntry]
      · rw [if_neg hc, if_neg (fun hC => hc hC.2), stepEntry]

/-- Witness for C1 at the first header of the concrete one-entry archive. -/
theorem claim_C1_witness :
    stepEntry (tarStep tarBufHello ((0 : Nat) : Int)) =
      some ([97, 46, 116, 120, 116], [104, 101, 108, 108, 111]) := by
  rw [(claim_C1_entry_emission tarBufHello 0 (by decide)).1]
  decide

/-- C2 (failing input): on the buffer whose header has the size field
`-1000`, `parseInt(sizeStr, 8)` returns -512 (the sign is consumed before
the octal digits and `-512 || 0` keeps -512), so the cursor advance is
`512 + Math.ceil(-512 / 512) * 512 = 0`: the iteration at offset 0 returns
to offset 0 with no entry, and the scanning loop never terminates (the
fuel-indexed runner returns `none` for every fuel).  This contradicts the
termination invariant the claim states. -/
theorem claim_C2_nontermination :
    tarStep tarBufLoop ((0 : Nat) : Int) = TarStep.next 0 none ∧
    entrySize tarBufLoop 0 = -512 ∧
    ∀ (fuel : Nat) (acc : List (List Nat × List Nat)),
      tarRunAux tarBufLoop fuel 0 acc = none := by
  refine ⟨by decide, by decide, ?_⟩
  intro fuel
  induction fuel with
  | zero => intro acc; rfl
  | succ n ih =>
    intro acc
    rw [tarRunAux, show tarStep tarBufLoop 0 = TarStep.next 0 none from by decide]
    dsimp only
    rw [show (none : Option (List Nat × List Nat)).toList = [] from rfl, List.append_nil]
    exact ih acc

/-- C3 (counterexample): on a buffer consisting of exactly one well-formed
512-byte header (name `a.txt`, size 5, type flag `'0'`), at least 512 bytes
remain at offset 0, the block is not all zero and the decoded name is
non-empty, yet the loop guard `offset < byteLength - 512` is already false,
so the scan stops without processing the header.  The claim states the loop
stops only when fewer than 512 bytes remain, the block is all zero, or the
name is empty, and that otherwise the header is processed: it is false at
this input. -/
theorem claim_C3_counterexample :
    tarStep tarBufOneHeader ((0 : Nat) : Int) = TarStep.stop ∧
    ¬ ((byteLength tarBufOneHeader : Int) - ((0 : Nat) : Int) < 512 ∨
       isZeroBlock tarBufOneHeader 0 = true ∨
       decodedName tarBufOneHeader 0 = []) := by
  refine ⟨by decide, by decide⟩

/-- C3 (amended): the scanning loop stops, silently, exactly when 512 or
fewer bytes remain between the cursor and end-of-buffer (the loop processes
a header only when strictly more than 512 bytes remain past the cursor), or
the 512-byte block at the cursor is entirely zero (the single zero block is
the terminator and the following block is never examined), or the decoded
name of the header at the cursor is empty.  Whenever strictly more than 512
bytes remain and neither other condition holds, the header is processed. -/
theorem claim_C3_stop_conditions (buf : List Nat) (o : Nat) :
    tarStep buf o = TarStep.stop ↔
      (byteLength buf ≤ o + 512 ∨ isZeroBlock buf o = true ∨ decodedName buf o = []) := by
  rw [tarStep]
  by_cases h : (o : Int) < (byteLength buf : Int) - 512
  · rw [if_pos h, if_neg (by omega : ¬ (o : Int) < 0), toNat_natCast_eq]
    by_cases hz : isZeroBlock buf o = true
    · rw [if_pos hz]
      simp [hz]
    · rw [if_neg hz]
      by_cases hnm : decodedName buf o = []
      · rw [if_pos hnm]
        simp [hnm]
      · rw [if_neg hnm]
        constructor
        · intro hcon
          cases hcon
        · intro hr
          rcases hr with hr | hr | hr
          · exfalso
            omega
          · exact absurd hr hz
          · exact absurd hr hnm
  · rw [if_neg h]
    constructor
    · intro _
      left
      omega
    · intro _
      rfl

/-- C4 (failing input): on the buffer holding one good entry (`a`, content
`hello`) followed by a header whose size field is `-7777` (parsed -4095),
the first iteration emits the entry, the second advances the cursor to
-2048, and the third hits the DataView read at a negative offset, which
throws; `extractTar` therefore raises its error condition even though one
entry was emitted, contradicting the claim that a scan that emitted an
entry returns normally.  The claim's positive half does hold on an
immediately all-zero buffer, which raises after a full scan with zero
entries. -/
theorem claim_C4_error_despite_entry :
    stepEntry (tarStep tarBufNegJump ((0 : Nat) : Int)) = some ([97], [104, 101, 108, 108, 111]) ∧
    tarStep tarBufNegJump 1024 = TarStep.next (-2048) none ∧
    tarStep tarBufNegJump (-2048) = TarStep.fail ∧
    extractTar tarBufNegJump 8 = some TarResult.err ∧
    extractTar (List.replicate 1536 0) 8 = some TarResult.err := by
  refine ⟨by decide, by decide, by decide, by decide, by decide⟩

/-- C5: the size field is read as the bytes at offsets 124..135 of the
header, truncated at the first NUL or space (this is the definition of
`sizeField`), and parsed as octal; when the parse fails (`parseInt` returns
NaN, e.g. on an empty field or non-octal garbage), the `|| 0` clamp makes
the size 0, no entry is emitted, and the iteration returns `next` with the
cursor advanced by exactly 512 — the header plus a zero-length payload
region — so scanning continues with the following block and nothing is
raised. -/
theorem claim_C5_garbage_size_clamped (buf : List Nat) (o : Nat)
    (h : (o : Int) < (byteLength buf : Int) - 512)
    (hz : isZeroBlock buf o = false)
    (hn : decodedName buf o ≠ [])
    (hp : jsParseIntOct (jsTrim (sizeField buf o)) = none) :
    entrySize buf o = 0 ∧ tarStep buf o = TarStep.next ((o : Int) + 512) none := by
  have hsize : entrySize buf o = 0 := by
    rw [entrySize, jsParseSize, hp]
  refine ⟨hsize, ?_⟩
  rw [tarStep, if_pos h, if_neg (by omega : ¬ (o : Int) < 0), toNat_natCast_eq,
    if_neg (by rw [hz]; exact Bool.false_ne_true), if_neg hn, hsize]
  rw [if_neg (fun hc => absurd hc.1 (lt_irrefl 0))]
  norm_num [ceilDiv512]

/-- Witness for C5 at the header whose size field holds `zzz`. -/
theorem claim_C5_witness :
    entrySize tarBufGarbageSize 0 = 0 ∧
    tarStep tarBufGarbageSize ((0 : Nat) : Int) = TarStep.next (((0 : Nat) : Int) + 512) none :=
  claim_C5_garbage_size_clamped tarBufGarbageSize 0 (by decide) (by decide) (by decide) (by decide)

/-- C10: when a header that passes the emission conditions states a size
larger than what remains in the buffer, the parser does not fail and does
not read out of bounds: the content is the clamped slice starting right
after the header, and its length is the minimum of the stated size and the
bytes remaining after the header. -/
theorem claim_C10_content_clamped (buf : List Nat) (o : Nat)
    (h : (o : Int) < (byteLength buf : Int) - 512)
    (hz : isZeroBlock buf o = false)
    (hn : decodedName buf o ≠ [])
    (hc : 0 < entrySize buf o ∧ jsEndsWithSlash (decodedName buf o) = false ∧
      (typeFlag buf o = 0 ∨ typeFlag buf o = 48)) :
    stepEntry (tarStep buf o) =
      some (decodedName buf o, (buf.drop (o + 512)).take (entrySize buf o).toNat) ∧
    ((buf.drop (o + 512)).take (entrySize buf o).toNat).length =
      min (entrySize buf o).toNat (buf.length - (o + 512)) := by
  constructor
  · rw [tarStep, if_pos h, if_neg (by omega : ¬ (o : Int) < 0), toNat_natCast_eq,
      if_neg (by rw [hz]; exact Bool.false_ne_true), if_neg hn, if_pos hc, stepEntry]
  · rw [List.length_take, List.length_drop]

/-- Witness for C10 at the truncated archive whose header states size 1024
octal `2000` with only 512 bytes after the header. -/
theorem claim_C10_witness :
    (stepEntry (tarStep tarBufTruncated ((0 : Nat) : Int)) =
      some (decodedName tarBufTruncated 0,
        (tarBufTruncated.drop (0 + 512)).take (entrySize tarBufTruncated 0).toNat) ∧
    ((tarBufTruncated.drop (0 + 512)).take (entrySize tarBufTruncated 0).toNat).length =
      min (entrySize tarBufTruncated 0).toNat (tarBufTruncated.length - (0 + 512))) ∧
    entrySize tarBufTruncated 0 = 1024 ∧
    tarBufTruncated.length - (0 + 512) = 512 :=
  ⟨claim_C10_content_clamped tarBufTruncated 0 (by decide) (by decide) (by decide)
    ⟨by decide, by decide, by decide⟩, by decide, by decide⟩
